import Mathlib

/-!
Shallow embedding of the vehicle/tire approval-data extraction pipeline
(`document_analyzer.py`, `pdf_template_manager.py`).

Conventions of the embedding:
* Python strings are Lean `String`s; line-level scanning works on `List Char`.
* The regular expressions of the source are embedded as deterministic
  character-list parsers that reproduce the Python `re` backtracking
  behaviour of the concrete patterns (leftmost match for `search`,
  leftmost non-overlapping matches for `finditer`, anchored for `match`).
  The character classes are the ASCII ranges the patterns spell out;
  whitespace is the ASCII whitespace set.
* Python dicts that map code strings to descriptions become association
  lists with first-match lookup; assignment replaces the first binding in
  place or appends a new binding at the end, mirroring dict insertion
  order.
* The module-global `template_manager.codes_database` becomes an explicit
  `Db` value threaded through the functions that read or write it.
-/

/-- ASCII decimal digit, the class `[0-9]` / `\d` of the source patterns. -/
def isDigitC (c : Char) : Bool := decide (48 ≤ c.toNat) && decide (c.toNat ≤ 57)

/-- ASCII lowercase letter, the class `[a-z]`. -/
def isLowerC (c : Char) : Bool := decide (97 ≤ c.toNat) && decide (c.toNat ≤ 122)

/-- ASCII uppercase letter, the class `[A-Z]`. -/
def isUpperC (c : Char) : Bool := decide (65 ≤ c.toNat) && decide (c.toNat ≤ 90)

/-- ASCII whitespace, the class `\s` of the source patterns and the
characters removed by `str.strip()`. -/
def isSpaceC (c : Char) : Bool :=
  c = ' ' || c = '\t' || c = '\n' || c = '\r' || c = '\x0b' || c = '\x0c'

/-- Python `str.strip()` on a character list. -/
def stripL (l : List Char) : List Char :=
  ((l.dropWhile isSpaceC).reverse.dropWhile isSpaceC).reverse

/-- Python `str.strip()`. -/
def stripS (s : String) : String := ⟨stripL s.data⟩

/-- Python `text.split('\n')`: split at every newline, keeping empty pieces. -/
def splitNl : List Char → List (List Char)
  | [] => [[]]
  | c :: rest =>
    if c = '\n' then [] :: splitNl rest
    else
      match splitNl rest with
      | h :: t => (c :: h) :: t
      | [] => [[c]]

/-- The lines of a document, as in `text.split('\n')`. -/
def splitLinesS (text : String) : List String := (splitNl text.data).map fun l => ⟨l⟩

/-- Pair of the longest prefix satisfying `p` and the remainder
(the behaviour of `List.span`, spelled out for easy reasoning). -/
def spanD (p : Char → Bool) (l : List Char) : List Char × List Char :=
  (l.takeWhile p, l.dropWhile p)

/-- First-match lookup in an association list, the read of a Python dict. -/
def lookupKV (m : List (String × String)) (k : String) : Option String :=
  match m with
  | [] => none
  | (k', v) :: rest => if k' = k then some v else lookupKV rest k

/-- Python dict assignment `m[k] = v`: replace the first binding of `k`
in place, or append a fresh binding at the end. -/
def setKV (m : List (String × String)) (k v : String) : List (String × String) :=
  match m with
  | [] => [(k, v)]
  | (k', v') :: rest => if k' = k then (k, v) :: rest else (k', v') :: setKV rest k v

/-- The persisted glossary `codes_database`: the `auflagen` (restriction)
and `hinweise` (note) code-to-description maps plus the learned template
names (`pdf_template_manager.py`, `load_codes_database`). -/
structure Db where
  auflagen : List (String × String)
  hinweise : List (String × String)
  templates : List String
deriving DecidableEq

/-- The empty glossary, the state after loading with no stored file. -/
def dbEmpty : Db := ⟨[], [], []⟩

/-- The two storable categories, the dict keys `'auflagen'` and
`'hinweise'` returned by `classify_code`. -/
inductive Cat where
  | auflagen
  | hinweise
deriving DecidableEq

/-- The category's map inside the database, `codes_database[category]`. -/
def dbField (db : Db) : Cat → List (String × String)
  | .auflagen => db.auflagen
  | .hinweise => db.hinweise

/-- Replace the category's map, `codes_database[category] = m`. -/
def dbSetField (db : Db) (cat : Cat) (m : List (String × String)) : Db :=
  match cat with
  | .auflagen => { db with auflagen := m }
  | .hinweise => { db with hinweise := m }

/-- Exact match of `^X\d{2}$` on a stripped code: the letter `x` followed
by exactly two digits. -/
def matchesLdd (x : Char) (c : List Char) : Bool :=
  match c with
  | [a, d1, d2] => a = x && isDigitC d1 && isDigitC d2
  | _ => false

/-- Exact match of `^A\d{2}$`. -/
def matchesA2 (c : List Char) : Bool := matchesLdd 'A' c

/-- Exact match of `^A[A-Z][a-z]$`. -/
def matchesAUl (c : List Char) : Bool :=
  match c with
  | [a, u, lo] => a = 'A' && isUpperC u && isLowerC lo
  | _ => false

/-- `PDFTemplateManager.classify_code`: strip the code, classify it as a
restriction (`A\d{2}` or `A[A-Z][a-z]`), a note (`S\d{2}`, `B\d{2}`,
`F\d{2}`, or one of the literals `Car`, `Cou`, `NoE`, `BnK`), or
unclassified (`None`). -/
def classify_code (code : String) : Option Cat :=
  let c := (stripS code).data
  if matchesA2 c || matchesAUl c then some .auflagen
  else if matchesLdd 'S' c || matchesLdd 'B' c || matchesLdd 'F' c ||
      c = "Car".data || c = "Cou".data || c = "NoE".data || c = "BnK".data then
    some .hinweise
  else none

/-- `PDFTemplateManager.get_code_description`: classify the code and look
its (unstripped) string up in the resulting category's map. -/
def get_code_description (db : Db) (code : String) : Option String :=
  match classify_code code with
  | some cat => lookupKV (dbField db cat) code
  | none => none

/-- Outcome of one glossary merge step, the `stats` cases of
`learn_from_pdf` (`new` / `updated` counters; identical description
touches neither counter, reported here as `unchanged`). -/
inductive UpsertOutcome where
  | new
  | updated
  | unchanged
deriving DecidableEq

/-- The per-code merge step of `learn_from_pdf` (lines 149-156): absent
code is inserted and counted new; a differing description is overwritten
and counted updated; an identical description is left untouched. -/
def upsert (db : Db) (cat : Cat) (code desc : String) : Db × UpsertOutcome :=
  match lookupKV (dbField db cat) code with
  | none => (dbSetField db cat (dbField db cat ++ [(code, desc)]), .new)
  | some v =>
    if v = desc then (db, .unchanged)
    else (dbSetField db cat (setKV (dbField db cat) code desc), .updated)

/-- One extracted code set of a line: the `codes` dict built by
`extract_codes_from_line` with its three category lists. -/
structure Codes where
  auflagen : List String
  hinweise : List String
  reifen_codes : List (String × String)
deriving DecidableEq

/-- One tire entry of a vehicle record (`current_vehicle['reifen']`
elements): canonical size, the codes of its source line, and the source
line itself. -/
structure Tire where
  groesse : String
  codes : Codes
  original_line : String
deriving DecidableEq

/-- `re.match(r'(\d+)/(\d+)R(\d+)', tire)` of `validate_tire_combination`
followed by `map(int, ...)`: parse a leading `digits/digitsRdigits`
shape into the three integers, ignoring any trailing characters. -/
def parseTireSize (s : String) : Option (Nat × Nat × Nat) :=
  let toN : List Char → Nat := fun ds => ds.foldl (fun n c => n * 10 + (c.toNat - 48)) 0
  let (d1, r1) := spanD isDigitC s.data
  if d1 = [] then none
  else
    match r1 with
    | '/' :: r2 =>
      let (d2, r3) := spanD isDigitC r2
      if d2 = [] then none
      else
        match r3 with
        | 'R' :: r4 =>
          let (d3, _) := spanD isDigitC r4
          if d3 = [] then none else some (toN d1, toN d2, toN d3)
        | _ => none
    | _ => none

/-- The result dict of `validate_tire_combination`. The early invalid-format
return carries no `original_codes` / `reifen_codes` keys, rendered here as
`none` in those fields. -/
structure ValidationResult where
  status : String
  hinweise : List String
  auflagen : List String
  technische_hinweise : List String
  original_codes : Option Codes
  reifen_codes : Option (List (String × String))
deriving DecidableEq

/-- Resolution of one code against the glossary inside
`validate_tire_combination`: emit `code: description` when a description
is found, else the bare code. -/
def resolveOne (db : Db) (code : String) : String :=
  match get_code_description db code with
  | some d => code ++ ": " ++ d
  | none => code

/-- `validate_tire_combination`: parse the tire size (early `Nicht
zulässig` return on format failure), accumulate the three dimensional
warnings, resolve restriction and note codes against the glossary, and
select the status. The glossary is threaded through and returned so that
its (absent) mutation is observable. -/
def validate_tire_combination (_vehicle : String) (ti : Tire) (db : Db) :
    ValidationResult × Db :=
  match parseTireSize ti.groesse with
  | none =>
    ({ status := "Nicht zulässig", hinweise := ["Ungültiges Reifenformat"],
       auflagen := [], technische_hinweise := [],
       original_codes := none, reifen_codes := none }, db)
  | some (w, a, d) =>
    let vm : List String :=
      (if w < 155 ∨ 335 < w then ["Ungewöhnliche Reifenbreite"] else []) ++
      (if a < 25 ∨ 80 < a then ["Ungewöhnliches Höhen-Breiten-Verhältnis"] else []) ++
      (if d < 16 ∨ 22 < d then ["Ungewöhnlicher Felgendurchmesser"] else [])
    let aufl := ti.codes.auflagen.map (resolveOne db)
    let tech := ti.codes.hinweise.map (resolveOne db)
    let status :=
      if vm ≠ [] then "Prüfung erforderlich"
      else if ti.codes.auflagen ≠ [] then "Zulässig mit Auflagen"
      else "Zulässig ohne Eintragung"
    ({ status := status, hinweise := vm, auflagen := aufl,
       technische_hinweise := tech, original_codes := some ti.codes,
       reifen_codes := some ti.codes.reifen_codes }, db)

/-- Lookahead `(?=[\s\.,]|$)` of the code-extraction patterns: end of the
line, whitespace, a period or a comma. -/
def lookOk : List Char → Bool
  | [] => true
  | c :: _ => isSpaceC c || c = '.' || c = ','

/-- Consume a literal prefix, the literal parts of the source patterns. -/
def stripPfx (lit : List Char) (l : List Char) : Option (List Char) :=
  if l.take lit.length = lit then some (l.drop lit.length) else none

/-- Optional `\.[0-9]+` suffix of the restriction-code group followed by
the lookahead. Only the maximal digit run can satisfy the lookahead, since
a digit is never whitespace, a period or a comma. -/
def auflSfx (base : List Char) (r : List Char) : Option (List Char × List Char) :=
  match r with
  | c :: r2 =>
    if c = '.' then
      let (ds2, r3) := spanD isDigitC r2
      if ds2 = [] then none
      else if lookOk r3 then some (base ++ '.' :: ds2, r3) else none
    else none
  | [] => none

/-- The taken-lowercase alternative of the restriction-code group: one
lowercase letter after the digit run, then its optional suffix (preferred)
or the bare lookahead. -/
def auflWithLc (ds : List Char) (r1 : List Char) : Option (List Char × List Char) :=
  match r1 with
  | lc :: r2 =>
    if isLowerC lc then
      auflSfx ('A' :: ds ++ [lc]) r2 <|>
        (if lookOk r2 then some ('A' :: ds ++ [lc], r2) else none)
    else none
  | [] => none

/-- Continuation of the restriction-code group `A[0-9]+[a-z]?(\.[0-9]+)?`
after the maximal digit run `ds`, following the regex backtracking order:
with the optional lowercase letter first (its suffix variants first),
then without it. -/
def auflAfterDigits (ds : List Char) (r1 : List Char) : Option (List Char × List Char) :=
  auflWithLc ds r1 <|>
  auflSfx ('A' :: ds) r1 <|>
  (if lookOk r1 then some ('A' :: ds, r1) else none)

/-- The restriction-code group
`(A(?:[0-9]+[a-z]?(?:\.[0-9]+)?|-[0-9]+))(?=[\s\.,]|$)` of
`extract_codes_from_line`, tried at one position: returns the group and
the remainder after it. -/
def tryAuflGroup (l : List Char) : Option (List Char × List Char) :=
  match l with
  | a :: rest =>
    if a = 'A' then
      match rest with
      | c :: cs =>
        if isDigitC c then
          let (ds, r1) := spanD isDigitC rest
          auflAfterDigits ds r1
        else if c = '-' then
          let (ds, r1) := spanD isDigitC cs
          if ds = [] then none
          else if lookOk r1 then some ('A' :: '-' :: ds, r1) else none
        else none
      | [] => none
    else none
  | [] => none

/-- The tire-combination group `(T\d+)(?=[\s\.,]|$)` of
`extract_codes_from_line`, tried at one position. -/
def tryReifenGroup : List Char → Option (List Char × List Char)
  | 'T' :: rest =>
    let (ds, r1) := spanD isDigitC rest
    if ds = [] then none
    else if lookOk r1 then some ('T' :: ds, r1) else none
  | _ => none

/-- The class of the note-code group: an uppercase letter other than `A`
and `T` (`[BCDEFGHIJKLMNOPQRSUVWXYZ]`). -/
def noteLetter (c : Char) : Bool := isUpperC c && !(c = 'A') && !(c = 'T')

/-- Match one literal alternative of the note-code group followed by the
lookahead. -/
def tryLit (lit : List Char) (l : List Char) : Option (List Char × List Char) :=
  match stripPfx lit l with
  | some r => if lookOk r then some (lit, r) else none
  | none => none

/-- The note-code group
`([BCDEFGHIJKLMNOPQRSUVWXYZ]\d+[a-z]?|Car|Cou|NoE|BnK)(?=[\s\.,]|$)` of
`extract_codes_from_line`, tried at one position; the letter-digits
branch first, then the four literals in source order. -/
def tryHinwGroup (l : List Char) : Option (List Char × List Char) :=
  (match l with
   | c :: rest =>
     if noteLetter c then
       let (ds, r1) := spanD isDigitC rest
       if ds = [] then none
       else
         match r1 with
         | lc :: r2 =>
           if isLowerC lc then
             if lookOk r2 then some (c :: ds ++ [lc], r2)
             else if lookOk r1 then some (c :: ds, r1) else none
           else if lookOk r1 then some (c :: ds, r1) else none
         | [] => if lookOk r1 then some (c :: ds, r1) else none
     else none
   | [] => none) <|>
  tryLit "Car".data l <|> tryLit "Cou".data l <|> tryLit "NoE".data l <|>
  tryLit "BnK".data l

/-- One `finditer` step for a pattern guarded by `(?:^|\s)`: at the very
start of the line the group is tried directly (the `^` branch), otherwise
a whitespace character is consumed first (the `\s` branch). Returns the
group and the number of consumed characters minus one. -/
def boundaryStep (try1 : List Char → Option (List Char × List Char))
    (l : List Char) (pos0 : Bool) : Option (List Char × Nat) :=
  match (if pos0 then try1 l else none) with
  | some (g, rem) => some (g, l.length - rem.length - 1)
  | none =>
    match l with
    | c :: rest =>
      if isSpaceC c then
        match try1 rest with
        | some (g, rem) => some (g, l.length - rem.length - 1)
        | none => none
      else none
    | [] => none

/-- `re.finditer`: scan the line left to right, emitting non-overlapping
matches; after a match the scan resumes right after it. The fuel argument
(always instantiated with more than the line length) only serves
structural termination. -/
def scanIter {β : Type} (f : List Char → Bool → Option (β × Nat)) :
    Nat → List Char → Bool → List β
  | 0, _, _ => []
  | _ + 1, [], _ => []
  | fuel + 1, c :: rest, pos0 =>
    match f (c :: rest) pos0 with
    | some (a, k) => a :: scanIter f fuel (rest.drop k) false
    | none => scanIter f fuel rest false

/-- Run a `finditer` scan over a whole line. -/
def runScan {β : Type} (f : List Char → Bool → Option (β × Nat)) (l : List Char) :
    List β :=
  scanIter f (l.length + 1) l true

/-- `extract_codes_from_line`: collect the restriction matches (hyphen
normalized away by `replace('-', '')`), the note matches, and the
tire-combination matches (each paired with the stripped line as its
description). -/
def extract_codes_from_line (line : String) : Codes :=
  let l := line.data
  { auflagen := (runScan (boundaryStep tryAuflGroup) l).map fun g =>
      (⟨g.filter fun c => !(c = '-')⟩ : String),
    hinweise := (runScan (boundaryStep tryHinwGroup) l).map fun g => (⟨g⟩ : String),
    reifen_codes := (runScan (boundaryStep tryReifenGroup) l).map fun g =>
      ((⟨g⟩ : String), stripS line) }

/-- Take exactly `n` digits. -/
def takeDigitsN : Nat → List Char → Option (List Char × List Char)
  | 0, l => some ([], l)
  | n + 1, c :: rest =>
    if isDigitC c then (takeDigitsN n rest).map fun p => (c :: p.1, p.2) else none
  | _ + 1, [] => none

/-- Tail of the tire pattern after the `ZR`/`R` marker: exactly two
digits. -/
def tireAfterMark (g1 g2 : List Char) (l : List Char) :
    Option ((List Char × List Char × List Char) × List Char) :=
  match takeDigitsN 2 l with
  | some (g3, r) => some ((g1, g2, g3), r)
  | none => none

/-- The `(?:ZR|R)` marker of the tire pattern: `ZR` preferred, plain `R`
otherwise. -/
def tireMark (g1 g2 : List Char) (l : List Char) :
    Option ((List Char × List Char × List Char) × List Char) :=
  match l with
  | 'Z' :: 'R' :: r => tireAfterMark g1 g2 r
  | 'R' :: r => tireAfterMark g1 g2 r
  | _ => none

/-- Second group `(\d{2,3})` of the tire pattern: three digits preferred,
two as fallback, each continuing with the marker. -/
def tireG2 (g1 : List Char) (l : List Char) :
    Option ((List Char × List Char × List Char) × List Char) :=
  (match takeDigitsN 3 l with
   | some (g2, r) => tireMark g1 g2 r
   | none => none) <|>
  (match takeDigitsN 2 l with
   | some (g2, r) => tireMark g1 g2 r
   | none => none)

/-- Separator class of the tire pattern: a slash or a hyphen. -/
def tireSep (g1 : List Char) (l : List Char) :
    Option ((List Char × List Char × List Char) × List Char) :=
  match l with
  | c :: r => if c = '/' || c = '-' then tireG2 g1 r else none
  | [] => none

/-- The tire pattern (two or three digits, a slash or hyphen, two or
three digits, `ZR` or `R`, two digits) tried at one position, with the
regex backtracking order on the first group. -/
def tryTireAt (l : List Char) :
    Option ((List Char × List Char × List Char) × List Char) :=
  (match takeDigitsN 3 l with
   | some (g1, r) => tireSep g1 r
   | none => none) <|>
  (match takeDigitsN 2 l with
   | some (g1, r) => tireSep g1 r
   | none => none)

/-- One `finditer` step of the tire pattern (no boundary guard in the
source pattern). -/
def tireStep (l : List Char) (_ : Bool) :
    Option ((String × String × String) × Nat) :=
  match tryTireAt l with
  | some ((g1, g2, g3), rem) =>
    some (((⟨g1⟩ : String), (⟨g2⟩ : String), (⟨g3⟩ : String)),
      l.length - rem.length - 1)
  | none => none

/-- The code-header `re.match(r'^([A-Z]\d+[a-z]?(?:\.[0-9]+)?)\s+(.+)$')`
of `analyze_vehicle_data`: an uppercase letter, digits, optional lowercase
letter, optional `.digits`, at least one whitespace, and a nonempty rest.
When the rest after the whitespace run is empty, the regex backtracks one
whitespace character into the `(.+)` group. -/
def matchCodeHeader (l : List Char) : Option (List Char × List Char) :=
  match l with
  | c :: rest =>
    if isUpperC c then
      let (ds, r1) := spanD isDigitC rest
      if ds = [] then none
      else
        let p2 : List Char × List Char :=
          match r1 with
          | lc :: r2' => if isLowerC lc then ([lc], r2') else ([], r1)
          | [] => ([], r1)
        let p3 : List Char × List Char :=
          match p2.2 with
          | '.' :: r2' =>
            let (ds2, r3') := spanD isDigitC r2'
            if ds2 = [] then ([], p2.2) else ('.' :: ds2, r3')
          | _ => ([], p2.2)
        let (ws, r4) := spanD isSpaceC p3.2
        if ws = [] then none
        else
          match r4 with
          | _ :: _ => some (c :: ds ++ p2.1 ++ p3.1, r4)
          | [] =>
            match ws.reverse with
            | w :: _ => if 2 ≤ ws.length then some (c :: ds ++ p2.1 ++ p3.1, [w]) else none
            | [] => none
    else none
  | [] => none

/-- The dedicated tire-combination sentence pattern
`(T\d+)\s+Reifen\s+\([^)]+\)\s+zulässig\s+für\s+([^\n]+)` tried at one
position; returns the `T` code and the second group. -/
def tryTCodeAt (l : List Char) : Option (List Char × List Char) :=
  match l with
  | 'T' :: rest =>
    let (ds, r1) := spanD isDigitC rest
    if ds = [] then none
    else
      let (ws1, r2) := spanD isSpaceC r1
      if ws1 = [] then none
      else
        match stripPfx "Reifen".data r2 with
        | none => none
        | some r3 =>
          let (ws2, r4) := spanD isSpaceC r3
          if ws2 = [] then none
          else
            match r4 with
            | '(' :: r5 =>
              let (inner, r6) := spanD (fun ch => !(ch = ')')) r5
              if inner = [] then none
              else
                match r6 with
                | ')' :: r7 =>
                  let (ws3, r8) := spanD isSpaceC r7
                  if ws3 = [] then none
                  else
                    match stripPfx "zulässig".data r8 with
                    | none => none
                    | some r9 =>
                      let (ws4, r10) := spanD isSpaceC r9
                      if ws4 = [] then none
                      else
                        match stripPfx "für".data r10 with
                        | none => none
                        | some r11 =>
                          let (ws5, r12) := spanD isSpaceC r11
                          if ws5 = [] then none
                          else
                            match r12 with
                            | _ :: _ => some ('T' :: ds, r12)
                            | [] =>
                              match ws5.reverse with
                              | w :: _ =>
                                if 2 ≤ ws5.length then some ('T' :: ds, [w]) else none
                              | [] => none
                | _ => none
            | _ => none
  | _ => none

/-- `re.search` of the tire-combination sentence pattern: leftmost match. -/
def tCodeSearch : List Char → Option (List Char × List Char)
  | [] => none
  | c :: rest => tryTCodeAt (c :: rest) <|> tCodeSearch rest

/-- The vehicle header pattern `Audi\s+([A-Z][A-Z0-9\s]+)` tried at one
position: the literal `Audi`, whitespace, then the greedy model group. -/
def tryAudiAt (l : List Char) : Option (List Char) :=
  match stripPfx "Audi".data l with
  | some r =>
    let (ws, r2) := spanD isSpaceC r
    if ws = [] then none
    else
      match r2 with
      | c :: r3 =>
        if isUpperC c then
          let (cls, _) := spanD (fun ch => isUpperC ch || isDigitC ch || isSpaceC ch) r3
          if cls = [] then none else some (c :: cls)
        else none
      | [] => none
  | none => none

/-- `re.search` of the vehicle header pattern: leftmost match, returning
the model group. -/
def audiSearch : List Char → Option (List Char)
  | [] => none
  | c :: rest => tryAudiAt (c :: rest) <|> audiSearch rest

/-- `\s*([^\n]+)` after an attribute label: skip the whitespace run and
take the nonempty rest as the group; when nothing follows the run, the
regex backtracks one whitespace character into the group. -/
def afterLabel (r : List Char) : Option (List Char) :=
  let (ws, r2) := spanD isSpaceC r
  match r2 with
  | _ :: _ => some r2
  | [] =>
    match ws.reverse with
    | w :: _ => some [w]
    | [] => none

/-- An attribute pattern `LABEL:\s*([^\n]+)` with a fixed label, tried at
one position. -/
def tryLabel (lbl : List Char) (l : List Char) : Option (List Char) :=
  match stripPfx lbl l with
  | some r => afterLabel r
  | none => none

/-- `Hersteller(?:zeichen)?:\s*([^\n]+)` tried at one position; the
optional `zeichen` is preferred. -/
def tryManufacturer (l : List Char) : Option (List Char) :=
  match stripPfx "Hersteller".data l with
  | some r =>
    match stripPfx "zeichen:".data r with
    | some r2 => afterLabel r2
    | none =>
      match stripPfx ":".data r with
      | some r2 => afterLabel r2
      | none => none
  | none => none

/-- `Typ und (?:die )?Ausführung:\s*([^\n]+)` tried at one position; the
optional `die ` is preferred. -/
def tryTypeVersion (l : List Char) : Option (List Char) :=
  match stripPfx "Typ und ".data l with
  | some r =>
    match stripPfx "die ".data r with
    | some r2 =>
      match stripPfx "Ausführung:".data r2 with
      | some r3 => afterLabel r3
      | none =>
        match stripPfx "Ausführung:".data r with
        | some r3 => afterLabel r3
        | none => none
    | none =>
      match stripPfx "Ausführung:".data r with
      | some r3 => afterLabel r3
      | none => none
  | none => none

/-- `Herstelldatum \((?:Monat und Jahr|month and year)\):\s*([^\n]+)`
tried at one position; the German alternative is preferred. -/
def tryManufactureDate (l : List Char) : Option (List Char) :=
  match stripPfx "Herstelldatum (".data l with
  | some r =>
    match stripPfx "Monat und Jahr):".data r with
    | some r2 => afterLabel r2
    | none =>
      match stripPfx "month and year):".data r with
      | some r2 => afterLabel r2
      | none => none
  | none => none

/-- `re.search` for an attribute pattern: leftmost position where the
matcher succeeds. -/
def searchAttr (tryLbl : List Char → Option (List Char)) :
    List Char → Option (List Char)
  | [] => none
  | c :: rest =>
    match tryLbl (c :: rest) with
    | some g => some g
    | none => searchAttr tryLbl rest

/-- The attribute patterns of `analyze_vehicle_data` in dict order, keyed
as in the source. -/
def attrSearches : List (String × (List Char → Option (List Char))) :=
  [("manufacturer", searchAttr tryManufacturer),
   ("wheel_size", searchAttr (tryLabel "Felgengröße:".data)),
   ("type_version", searchAttr tryTypeVersion),
   ("manufacture_date", searchAttr tryManufactureDate),
   ("approval_id", searchAttr (tryLabel "Genehmigungszeichen:".data)),
   ("inset", searchAttr (tryLabel "Einpresstiefe:".data))]

/-- The attribute loop of `analyze_vehicle_data` (lines 147-151): for each
non-excluded pattern that matches, store its stripped group under the
pattern's key in `kennzeichnungen`. -/
def applyAttrs (ks : List (String × String)) (l : List Char) :
    List (String × String) :=
  attrSearches.foldl
    (fun ks kv =>
      match kv.2 l with
      | some g => setKV ks kv.1 (stripS (⟨g⟩ : String))
      | none => ks)
    ks

/-- One vehicle record being accumulated (`current_vehicle`): name, tire
entries, attribute map, and tire-combination codes. -/
structure Vehicle where
  fahrzeug : String
  reifen : List Tire
  kennzeichnungen : List (String × String)
  reifen_codes : List (String × String)
deriving DecidableEq

/-- The scanning state of `analyze_vehicle_data`: finished vehicles, the
open vehicle, the pending glossary code block with its collected
description lines, and the glossary database. -/
structure ScanState where
  vehicles : List Vehicle
  current_vehicle : Option Vehicle
  current_code_block : Option String
  code_description : List String
  db : Db
deriving DecidableEq

/-- Flush a pending code block into the glossary's `auflagen` map
(`codes_database.setdefault('auflagen', {})[block] = ' '.join(lines)`);
a no-op when no block or no description lines are pending. -/
def flushPending (s : ScanState) : Db :=
  match s.current_code_block with
  | some cb =>
    if s.code_description = [] then s.db
    else
      let joined := String.intercalate " " s.code_description
      { s.db with auflagen := setKV s.db.auflagen cb joined }
  | none => s.db

/-- One iteration of the line loop of `analyze_vehicle_data`: strip the
line; on a blank line flush the pending code block; on a code-header line
flush and start a new block (and continue); otherwise append the line to a
pending block's description, then check the tire-combination sentence, the
vehicle header (appending the open vehicle unconditionally), and — with a
vehicle open — the tire and attribute patterns. -/
def processLine (s : ScanState) (rawLine : String) : ScanState :=
  let line := stripS rawLine
  if line = "" then
    { s with db := flushPending s, current_code_block := none,
             code_description := [] }
  else
    match matchCodeHeader line.data with
    | some (code, desc) =>
      { s with db := flushPending s, current_code_block := some (⟨code⟩ : String),
               code_description := [(⟨desc⟩ : String)] }
    | none =>
      let s :=
        match s.current_code_block with
        | some _ => { s with code_description := s.code_description ++ [line] }
        | none => s
      match tCodeSearch line.data with
      | some (tc, rest) =>
        match s.current_vehicle with
        | some v =>
          { s with current_vehicle := some { v with reifen_codes :=
              v.reifen_codes ++ [((⟨tc⟩ : String), stripS (⟨rest⟩ : String))] } }
        | none => s
      | none =>
        match audiSearch line.data with
        | some model =>
          { s with
            vehicles := s.vehicles ++
              (match s.current_vehicle with | some v => [v] | none => []),
            current_vehicle := some
              { fahrzeug := "Audi " ++ stripS (⟨model⟩ : String), reifen := [],
                kennzeichnungen := [], reifen_codes := [] } }
        | none =>
          match s.current_vehicle with
          | some v =>
            let tms := runScan tireStep line.data
            let mkTire : String × String × String → Tire := fun g =>
              { groesse := g.1 ++ "/" ++ g.2.1 ++ "R" ++ g.2.2,
                codes := extract_codes_from_line line,
                original_line := line }
            let v := { v with reifen := v.reifen ++ tms.map mkTire }
            let v := { v with kennzeichnungen := applyAttrs v.kennzeichnungen line.data }
            { s with current_vehicle := some v }
          | none => s

/-- The initial scanning state. -/
def initState (db : Db) : ScanState := ⟨[], none, none, [], db⟩

/-- The line loop of `analyze_vehicle_data` over a list of lines. -/
def scanLines (ls : List String) (s : ScanState) : ScanState := ls.foldl processLine s

/-- `analyze_vehicle_data`: run the line loop over `text.split('\n')` and
append the still-open vehicle at end of input only when it has at least
one tire entry or tire-combination code. (The source performs no final
flush of a pending code block.) -/
def analyze_vehicle_data (text : String) (db : Db) : List Vehicle × Db :=
  let s := scanLines (splitLinesS text) (initState db)
  let vs := s.vehicles ++
    (match s.current_vehicle with
     | some v => if 0 < v.reifen.length ∨ 0 < v.reifen_codes.length then [v] else []
     | none => [])
  (vs, s.db)

/-- Shape of a (hyphen-normalized) restriction code emitted by the
extraction pattern: the letter `A`, a nonempty digit run, then a tail of
lowercase letters, periods and digits. -/
def codeShape (g : List Char) : Prop :=
  ∃ ds t, g = 'A' :: ds ++ t ∧ ds ≠ [] ∧ (∀ c ∈ ds, isDigitC c = true) ∧
    (∀ c ∈ t, isLowerC c = true ∨ c = '.' ∨ isDigitC c = true)

theorem lookupKV_setKV (m : List (String × String)) (k v : String) :
    lookupKV (setKV m k v) k = some v := by
  induction m with
  | nil => simp [setKV, lookupKV]
  | cons h t ih =>
    obtain ⟨k', v'⟩ := h
    by_cases hk : k' = k
    · simp [setKV, lookupKV, hk]
    · simp [setKV, lookupKV, hk, ih]

theorem lookupKV_append_none (m : List (String × String)) (k v : String)
    (h : lookupKV m k = none) : lookupKV (m ++ [(k, v)]) k = some v := by
  induction m with
  | nil => simp [lookupKV]
  | cons hd t ih =>
    obtain ⟨k', v'⟩ := hd
    by_cases hk : k' = k
    · simp [lookupKV, hk] at h
    · simp [lookupKV, hk] at h ⊢
      exact ih h

theorem dbField_dbSetField (db : Db) (cat : Cat) (m : List (String × String)) :
    dbField (dbSetField db cat m) cat = m := by
  cases cat <;> rfl

theorem upsert_lookup (db : Db) (cat : Cat) (code desc : String) :
    lookupKV (dbField (upsert db cat code desc).1 cat) code = some desc := by
  unfold upsert
  cases h : lookupKV (dbField db cat) code with
  | none => simp [dbField_dbSetField, lookupKV_append_none _ _ _ h]
  | some v =>
    by_cases hv : v = desc
    · simp [hv, h]
    · simp [hv, dbField_dbSetField, lookupKV_setKV]

/-- Claim C3: for a tire entry whose size parses as integers, the three
dimensional warnings accumulate independently, the status is `Prüfung
erforderlich` (ReviewRequired) exactly when a warning exists, else
`Zulässig mit Auflagen` (ApprovedWithRestrictions) when restriction codes
are attached, else `Zulässig ohne Eintragung` (Approved); in particular an
in-range size with no restriction codes is approved with no warnings, and
any width below 155 forces the width warning and review status. -/
theorem spec_C3 (v : String) (ti : Tire) (db : Db) (w a d : Nat)
    (h : parseTireSize ti.groesse = some (w, a, d)) :
    (("Ungewöhnliche Reifenbreite" ∈ (validate_tire_combination v ti db).1.hinweise) ↔
      (w < 155 ∨ 335 < w)) ∧
    (("Ungewöhnliches Höhen-Breiten-Verhältnis" ∈ (validate_tire_combination v ti db).1.hinweise) ↔
      (a < 25 ∨ 80 < a)) ∧
    (("Ungewöhnlicher Felgendurchmesser" ∈ (validate_tire_combination v ti db).1.hinweise) ↔
      (d < 16 ∨ 22 < d)) ∧
    ((validate_tire_combination v ti db).1.status =
      if (validate_tire_combination v ti db).1.hinweise ≠ [] then "Prüfung erforderlich"
      else if ti.codes.auflagen ≠ [] then "Zulässig mit Auflagen"
      else "Zulässig ohne Eintragung") ∧
    ((155 ≤ w ∧ w ≤ 335 ∧ 25 ≤ a ∧ a ≤ 80 ∧ 16 ≤ d ∧ d ≤ 22 ∧ ti.codes.auflagen = []) →
      (validate_tire_combination v ti db).1.status = "Zulässig ohne Eintragung" ∧
      (validate_tire_combination v ti db).1.hinweise = []) ∧
    (w < 155 →
      ("Ungewöhnliche Reifenbreite" ∈ (validate_tire_combination v ti db).1.hinweise ∧
       (validate_tire_combination v ti db).1.status = "Prüfung erforderlich")) := by
  by_cases hw : w < 155 ∨ 335 < w <;> by_cases ha : a < 25 ∨ 80 < a <;>
    by_cases hd : d < 16 ∨ 22 < d <;>
    simp [validate_tire_combination, h, hw, ha, hd] <;> omega

/-- Claim C3 witness: an in-range size with no codes is approved with no
warnings. -/
theorem spec_C3_witness :
    (validate_tire_combination "Audi A4"
        { groesse := "205/55R16", codes := { auflagen := [], hinweise := [], reifen_codes := [] },
          original_line := "" } dbEmpty).1.status = "Zulässig ohne Eintragung" ∧
    (validate_tire_combination "Audi A4"
        { groesse := "205/55R16", codes := { auflagen := [], hinweise := [], reifen_codes := [] },
          original_line := "" } dbEmpty).1.hinweise = [] :=
  (spec_C3 "Audi A4"
      { groesse := "205/55R16", codes := { auflagen := [], hinweise := [], reifen_codes := [] },
        original_line := "" } dbEmpty 205 55 16 (by decide)).2.2.2.2.1 (by decide)

/-- Claim C4: a tire size that fails the canonical shape yields status
`Nicht zulässig` (NotApproved) with exactly the single warning
`Ungültiges Reifenformat` and empty restriction and note lists, and the
result is independent of the glossary (the glossary is not consulted). -/
theorem spec_C4 (v : String) (ti : Tire) (db db' : Db)
    (h : parseTireSize ti.groesse = none) :
    (validate_tire_combination v ti db).1 =
      { status := "Nicht zulässig", hinweise := ["Ungültiges Reifenformat"],
        auflagen := [], technische_hinweise := [],
        original_codes := none, reifen_codes := none } ∧
    (validate_tire_combination v ti db).1 = (validate_tire_combination v ti db').1 := by
  constructor <;> simp [validate_tire_combination, h]

/-- Claim C4 witness: the malformed size `abcR17` with attached codes and
a populated glossary still takes the early invalid-format return. -/
theorem spec_C4_witness :
    (validate_tire_combination "X"
        { groesse := "abcR17",
          codes := { auflagen := ["A12"], hinweise := ["B01"], reifen_codes := [] },
          original_line := "" }
        { auflagen := [("A12", "Beschreibung")], hinweise := [], templates := [] }).1 =
      { status := "Nicht zulässig", hinweise := ["Ungültiges Reifenformat"],
        auflagen := [], technische_hinweise := [],
        original_codes := none, reifen_codes := none } ∧
    (validate_tire_combination "X"
        { groesse := "abcR17",
          codes := { auflagen := ["A12"], hinweise := ["B01"], reifen_codes := [] },
          original_line := "" }
        { auflagen := [("A12", "Beschreibung")], hinweise := [], templates := [] }).1 =
      (validate_tire_combination "X"
        { groesse := "abcR17",
          codes := { auflagen := ["A12"], hinweise := ["B01"], reifen_codes := [] },
          original_line := "" } dbEmpty).1 :=
  spec_C4 "X"
    { groesse := "abcR17",
      codes := { auflagen := ["A12"], hinweise := ["B01"], reifen_codes := [] },
      original_line := "" }
    { auflagen := [("A12", "Beschreibung")], hinweise := [], templates := [] }
    dbEmpty (by decide)

/-- Claim C5: the two-line document `Audi A4` / `235/45R18 A12` produces
exactly one vehicle record named `Audi A4` with exactly one tire entry of
size `235/45R18` whose restriction-code list is `["A12"]`. -/
theorem spec_C5 :
    (analyze_vehicle_data "Audi A4\n235/45R18 A12" dbEmpty).1 =
      [{ fahrzeug := "Audi A4",
         reifen := [{ groesse := "235/45R18",
                      codes := { auflagen := ["A12"], hinweise := [], reifen_codes := [] },
                      original_line := "235/45R18 A12" }],
         kennzeichnungen := [], reifen_codes := [] }] := by decide

/-- Claim C6: for a code that classifies as a restriction or note,
storing a description under the resulting category and then describing
the code returns exactly that description. -/
theorem spec_C6 (code : String) (cat : Cat) (d : String) (db : Db)
    (h : classify_code code = some cat) :
    get_code_description (upsert db cat code d).1 code = some d := by
  unfold get_code_description
  rw [h]
  exact upsert_lookup db cat code d

/-- Claim C6 witness: round-trip through `A12` on the empty glossary. -/
theorem spec_C6_witness :
    get_code_description (upsert dbEmpty .auflagen "A12" "Beschreibung").1 "A12" =
      some "Beschreibung" :=
  spec_C6 "A12" .auflagen "Beschreibung" dbEmpty (by decide)

/-- Claim C7: merging the identical category-code-description triple a
second time leaves the stored glossary identical and reports the
unchanged case. -/
theorem spec_C7 (db : Db) (cat : Cat) (code d : String) :
    upsert (upsert db cat code d).1 cat code d =
      ((upsert db cat code d).1, UpsertOutcome.unchanged) := by
  have key := upsert_lookup db cat code d
  generalize hg : (upsert db cat code d).1 = db1 at key ⊢
  unfold upsert
  rw [key]
  simp

/-- Claim C8: the line `A12a Verbreiterte Kotflügel erforderlich`
followed by a blank line makes the blank-line flush store exactly the
trimmed description under code `A12a` in the glossary. -/
theorem spec_C8 (db : Db) :
    lookupKV
      ((analyze_vehicle_data "A12a Verbreiterte Kotflügel erforderlich\n" db).2).auflagen
      "A12a" = some "Verbreiterte Kotflügel erforderlich" := by
  show lookupKV (setKV db.auflagen "A12a" "Verbreiterte Kotflügel erforderlich") "A12a" =
    some "Verbreiterte Kotflügel erforderlich"
  exact lookupKV_setKV _ _ _

/-- Claim C9: the combination validator returns the glossary snapshot it
was given unchanged — it only reads descriptions; being a function of its
arguments, its result depends only on them and that snapshot. -/
theorem spec_C9 (v : String) (ti : Tire) (db : Db) :
    (validate_tire_combination v ti db).2 = db := by
  cases h : parseTireSize ti.groesse with
  | none => simp [validate_tire_combination, h]
  | some x =>
    obtain ⟨w, a, d⟩ := x
    simp [validate_tire_combination, h]

/-- Claim C1 counterexample: in `Audi A4` / `Audi A6`, the vehicle
`Audi A4` is finalized by the second header line with no tire entry and
no tire-combination code, yet it is appended to the output — refuting the
claim that such a vehicle is discarded whenever a record is finalized. -/
theorem spec_C1_counterexample :
    (analyze_vehicle_data "Audi A4\nAudi A6" dbEmpty).1 =
      [{ fahrzeug := "Audi A4", reifen := [], kennzeichnungen := [],
         reifen_codes := [] }] := by decide

/-- Claim C1 (amended): only the end-of-input finalization applies the
at-least-one-tire-or-combination-code invariant — a still-open vehicle
with neither is not appended when input ends, and a document containing
only a vehicle header line yields zero records; a vehicle finalized by a
subsequent header line is appended unconditionally. -/
theorem spec_C1_theorem :
    (∀ (text : String) (db : Db) (v : Vehicle),
        (scanLines (splitLinesS text) (initState db)).current_vehicle = some v →
        v.reifen = [] → v.reifen_codes = [] →
        (analyze_vehicle_data text db).1 =
          (scanLines (splitLinesS text) (initState db)).vehicles) ∧
    (∀ db : Db, (analyze_vehicle_data "Audi A4" db).1 = []) := by
  constructor
  · intro text db v h h1 h2
    simp [analyze_vehicle_data, h, h1, h2]
  · intro db
    rfl

/-- Claim C1 witness: in `Audi A4` / `Audi A6` the still-open `Audi A6`
has no tires and no combination codes, so the output is exactly the
already-finalized vehicles. -/
theorem spec_C1_witness :
    (analyze_vehicle_data "Audi A4\nAudi A6" dbEmpty).1 =
      (scanLines (splitLinesS "Audi A4\nAudi A6") (initState dbEmpty)).vehicles :=
  spec_C1_theorem.1 "Audi A4\nAudi A6" dbEmpty
    { fahrzeug := "Audi A6", reifen := [], kennzeichnungen := [], reifen_codes := [] }
    (by decide) rfl rfl

/-- Claim C2 counterexample: with a vehicle open after `Audi A4`, the
line `A12 235/45R18` only opens a code block for `A12` (with the tire
size as its description text) and appends no tire entry to the open
vehicle, which is therefore discarded at end of input — refuting the
claimed fall-through into the tire scan. -/
theorem spec_C2_counterexample :
    (analyze_vehicle_data "Audi A4\nA12 235/45R18" dbEmpty).1 = [] ∧
    (scanLines (splitLinesS "Audi A4\nA12 235/45R18") (initState dbEmpty)).current_vehicle =
      some { fahrzeug := "Audi A4", reifen := [], kennzeichnungen := [],
             reifen_codes := [] } ∧
    (scanLines (splitLinesS "Audi A4\nA12 235/45R18") (initState dbEmpty)).current_code_block =
      some "A12" ∧
    (scanLines (splitLinesS "Audi A4\nA12 235/45R18") (initState dbEmpty)).code_description =
      ["235/45R18"] := by decide

/-- Claim C2 (amended): a line matching the code-header shape flushes the
previous pending block and starts a new one, and processing of that line
stops there (the source branch ends in `continue`): the vehicles, the
open vehicle, and everything else of the state except the pending block
and the flushed glossary are left unchanged, and the line is not scanned
for tire or vehicle patterns. -/
theorem spec_C2_theorem (s : ScanState) (line : String) (code desc : List Char)
    (h : matchCodeHeader (stripS line).data = some (code, desc)) :
    processLine s line =
      { s with db := flushPending s,
               current_code_block := some ((⟨code⟩ : String)),
               code_description := [(⟨desc⟩ : String)] } := by
  have hne : ¬ (stripS line = "") := by
    intro he
    rw [he] at h
    exact Option.noConfusion h
  unfold processLine
  simp only [hne, if_false, h]

/-- Claim C2 witness: with `Audi A4` open, `A12 235/45R18` only starts a
code block for `A12` with description `235/45R18`. -/
theorem spec_C2_witness :
    processLine ⟨[], some ⟨"Audi A4", [], [], []⟩, none, [], dbEmpty⟩ "A12 235/45R18" =
      ⟨[], some ⟨"Audi A4", [], [], []⟩, some "A12", ["235/45R18"], dbEmpty⟩ :=
  spec_C2_theorem ⟨[], some ⟨"Audi A4", [], [], []⟩, none, [], dbEmpty⟩
    "A12 235/45R18" "A12".data "235/45R18".data (by decide)


theorem orElse_some {α : Type} (a b : Option α) (x : α) (h : (a <|> b) = some x) :
    a = some x ∨ (a = none ∧ b = some x) := by
  cases a <;> simp_all

theorem auflSfx_shape (base r g rem : List Char)
    (h : auflSfx base r = some (g, rem)) :
    ∃ ds2, g = base ++ '.' :: ds2 ∧ ds2 ≠ [] ∧ ∀ c ∈ ds2, isDigitC c = true := by
  cases r with
  | nil => exact Option.noConfusion h
  | cons c r2 =>
    simp only [auflSfx, spanD] at h
    split_ifs at h with h1 h2 h3
    · simp only [Option.some.injEq, Prod.mk.injEq] at h
      exact ⟨r2.takeWhile isDigitC, h.1.symm, h2,
        fun c hc => List.mem_takeWhile_imp hc⟩

theorem auflWithLc_shape (ds r1 g rem : List Char)
    (hds : ds ≠ []) (hdig : ∀ c ∈ ds, isDigitC c = true)
    (h : auflWithLc ds r1 = some (g, rem)) : codeShape g := by
  have sfxCase : ∀ lc : Char, isLowerC lc = true →
      auflSfx ('A' :: ds ++ [lc]) r1.tail = some (g, rem) → codeShape g := by
    intro lc hlc h3
    obtain ⟨ds2, hg, hne2, hd2⟩ := auflSfx_shape _ _ _ _ h3
    refine ⟨ds, [lc] ++ '.' :: ds2, by rw [hg]; simp, hds, hdig, ?_⟩
    intro c hc
    simp at hc
    rcases hc with rfl | rfl | hc
    · exact Or.inl hlc
    · exact Or.inr (Or.inl rfl)
    · exact Or.inr (Or.inr (hd2 c hc))
  cases r1 with
  | nil => exact Option.noConfusion h
  | cons lc r2 =>
    simp only [auflWithLc] at h
    split_ifs at h with hlc hlo
    · rcases orElse_some _ _ _ h with h3 | ⟨_, h4⟩
      · exact sfxCase lc hlc h3
      · simp only [Option.some.injEq, Prod.mk.injEq] at h4
        refine ⟨ds, [lc], h4.1.symm, hds, hdig, ?_⟩
        intro c hc
        simp at hc
        subst hc
        exact Or.inl hlc
    · rcases orElse_some _ _ _ h with h3 | ⟨_, h4⟩
      · exact sfxCase lc hlc h3
      · exact Option.noConfusion h4

theorem auflAfterDigits_shape (ds r1 g rem : List Char)
    (hds : ds ≠ []) (hdig : ∀ c ∈ ds, isDigitC c = true)
    (h : auflAfterDigits ds r1 = some (g, rem)) : codeShape g := by
  unfold auflAfterDigits at h
  rcases orElse_some _ _ _ h with h1 | ⟨_, h2⟩
  · exact auflWithLc_shape _ _ _ _ hds hdig h1
  · rcases orElse_some _ _ _ h2 with h3 | ⟨_, h4⟩
    · obtain ⟨ds2, hg, hne2, hd2⟩ := auflSfx_shape _ _ _ _ h3
      refine ⟨ds, '.' :: ds2, by rw [hg], hds, hdig, ?_⟩
      intro c hc
      simp at hc
      rcases hc with rfl | hc
      · exact Or.inr (Or.inl rfl)
      · exact Or.inr (Or.inr (hd2 c hc))
    · split_ifs at h4 with hlo
      · simp only [Option.some.injEq, Prod.mk.injEq] at h4
        exact ⟨ds, [], by rw [← h4.1]; simp, hds, hdig, by simp⟩

theorem codeShape_filter (g : List Char) (h : codeShape g) :
    g.filter (fun c => !(c = '-')) = g := by
  rw [List.filter_eq_self]
  obtain ⟨ds, t, rfl, _, hdig, ht⟩ := h
  intro x hx
  simp at hx ⊢
  rcases hx with rfl | hx | hx
  · decide
  · have := hdig x hx
    intro hEq; subst hEq; exact absurd this (by decide)
  · rcases ht x hx with hl | rfl | hd
    · intro hEq; subst hEq; exact absurd hl (by decide)
    · decide
    · intro hEq; subst hEq; exact absurd hd (by decide)

theorem tryAuflGroup_shape (l g rem : List Char)
    (h : tryAuflGroup l = some (g, rem)) :
    codeShape (g.filter fun c => !(c = '-')) := by
  cases l with
  | nil => exact Option.noConfusion h
  | cons a rest =>
    cases rest with
    | nil =>
      simp only [tryAuflGroup] at h
      split_ifs at h
    | cons c cs =>
      simp only [tryAuflGroup, spanD] at h
      split_ifs at h with ha hc hcm hne hlook
      · -- digit branch
        have hds : (c :: cs).takeWhile isDigitC ≠ [] := by
          simp [List.takeWhile_cons, hc]
        have hshape := auflAfterDigits_shape _ _ _ _ hds
          (fun x hx => List.mem_takeWhile_imp hx) h
        rw [codeShape_filter g hshape]
        exact hshape
      · -- hyphen branch
        simp only [Option.some.injEq, Prod.mk.injEq] at h
        rw [← h.1]
        have hdig : ∀ x ∈ cs.takeWhile isDigitC, isDigitC x = true :=
          fun x hx => List.mem_takeWhile_imp hx
        have hfil : ('A' :: '-' :: cs.takeWhile isDigitC).filter (fun c => !(c = '-')) =
            'A' :: cs.takeWhile isDigitC := by
          rw [List.filter_cons_of_pos (by decide), List.filter_cons_of_neg (by simp),
            List.filter_eq_self.mpr]
          intro x hx
          have := hdig x hx
          simp
          intro hEq
          subst hEq
          exact absurd this (by decide)
        rw [hfil]
        exact ⟨cs.takeWhile isDigitC, [], by simp, hne, hdig, by simp⟩

theorem boundaryStep_from (try1 : List Char → Option (List Char × List Char))
    (l : List Char) (b : Bool) (g : List Char) (k : Nat)
    (h : boundaryStep try1 l b = some (g, k)) :
    ∃ l' rem, try1 l' = some (g, rem) := by
  unfold boundaryStep at h
  cases hb : (if b then try1 l else none) with
  | some p =>
    rw [hb] at h
    obtain ⟨g', rem⟩ := p
    simp only [Option.some.injEq, Prod.mk.injEq] at h
    cases b with
    | false => exact Option.noConfusion hb
    | true =>
      rw [if_pos rfl] at hb
      exact ⟨l, rem, by rw [hb, h.1]⟩
  | none =>
    rw [hb] at h
    cases l with
    | nil => exact Option.noConfusion h
    | cons c rest =>
      simp only at h
      split_ifs at h with hs
      cases ht : try1 rest with
      | some p =>
        obtain ⟨g', rem⟩ := p
        rw [ht] at h
        simp only [Option.some.injEq, Prod.mk.injEq] at h
        exact ⟨rest, rem, by rw [ht, h.1]⟩
      | none =>
        rw [ht] at h
        exact Option.noConfusion h

theorem scanIter_from {β : Type} (f : List Char → Bool → Option (β × Nat))
    (P : β → Prop) (hf : ∀ l b a k, f l b = some (a, k) → P a) :
    ∀ (fuel : Nat) (l : List Char) (b : Bool), ∀ a ∈ scanIter f fuel l b, P a := by
  intro fuel
  induction fuel with
  | zero =>
    intro l b a ha
    simp [scanIter] at ha
  | succ n ih =>
    intro l b a ha
    cases l with
    | nil => simp [scanIter] at ha
    | cons c rest =>
      rw [scanIter] at ha
      cases hc : f (c :: rest) b with
      | none =>
        rw [hc] at ha
        exact ih _ _ _ ha
      | some p =>
        obtain ⟨x, k⟩ := p
        rw [hc] at ha
        rcases List.mem_cons.mp ha with rfl | ha2
        · exact hf _ _ _ _ hc
        · exact ih _ _ _ ha2

theorem space_cases (c : Char) (h : isSpaceC c = true) :
    c = ' ' ∨ c = '\t' ∨ c = '\n' ∨ c = '\r' ∨ c = '\x0b' ∨ c = '\x0c' := by
  simp [isSpaceC] at h
  tauto

theorem isDigitC_not_space (c : Char) (h : isDigitC c = true) : isSpaceC c = false := by
  by_contra hc
  rw [Bool.not_eq_false] at hc
  rcases space_cases c hc with rfl | rfl | rfl | rfl | rfl | rfl <;>
    exact absurd h (by decide)

theorem isLowerC_not_space (c : Char) (h : isLowerC c = true) : isSpaceC c = false := by
  by_contra hc
  rw [Bool.not_eq_false] at hc
  rcases space_cases c hc with rfl | rfl | rfl | rfl | rfl | rfl <;>
    exact absurd h (by decide)

theorem dropWhile_of_all {p : Char → Bool} :
    ∀ (m : List Char), (∀ c ∈ m, p c = false) → m.dropWhile p = m := by
  intro m hm
  cases m with
  | nil => rfl
  | cons c cs =>
    rw [List.dropWhile_cons, hm c (by simp)]
    simp

theorem stripL_eq (l : List Char) (hall : ∀ c ∈ l, isSpaceC c = false) :
    stripL l = l := by
  unfold stripL
  rw [dropWhile_of_all l hall,
    dropWhile_of_all l.reverse (fun c hc => hall c (List.mem_reverse.mp hc)),
    List.reverse_reverse]

theorem codeShape_no_space (g : List Char) (h : codeShape g) :
    ∀ c ∈ g, isSpaceC c = false := by
  obtain ⟨ds, t, rfl, _, hdig, ht⟩ := h
  intro c hc
  simp at hc
  rcases hc with rfl | hc | hc
  · decide
  · exact isDigitC_not_space c (hdig c hc)
  · rcases ht c hc with hl | rfl | hd
    · exact isLowerC_not_space c hl
    · decide
    · exact isDigitC_not_space c hd

theorem isDigitC_not_upper (c : Char) (h : isDigitC c = true) : isUpperC c = false := by
  simp [isDigitC] at h
  simp [isUpperC]
  omega

theorem codeShape_not_AUl (g : List Char) (h : codeShape g) : matchesAUl g = false := by
  obtain ⟨ds, t, rfl, hne, hdig, _⟩ := h
  cases ds with
  | nil => exact absurd rfl hne
  | cons c1 ds' =>
    have hup : isUpperC c1 = false := isDigitC_not_upper c1 (hdig c1 (by simp))
    simp only [List.cons_append]
    cases hr : ds' ++ t with
    | nil => simp [matchesAUl]
    | cons x xs =>
      cases xs with
      | nil => simp [matchesAUl, hup]
      | cons y ys => simp [matchesAUl]

theorem codeShape_not_Ldd (g : List Char) (x : Char) (hx : ¬ ('A' = x))
    (h : codeShape g) : matchesLdd x g = false := by
  obtain ⟨ds, t, rfl, hne, hdig, _⟩ := h
  cases ds with
  | nil => exact absurd rfl hne
  | cons c1 ds' =>
    simp only [List.cons_append]
    cases hr : ds' ++ t with
    | nil => simp [matchesLdd]
    | cons u us =>
      cases us with
      | nil => simp [matchesLdd, hx]
      | cons y ys => simp [matchesLdd]

theorem codeShape_classify (g : List Char) (h : codeShape g)
    (h2 : matchesA2 g = false) : classify_code (⟨g⟩ : String) = none := by
  have hstrip : stripL g = g := stripL_eq g (codeShape_no_space g h)
  obtain ⟨ds, t, hg, hne, hdig, ht⟩ := h
  have hA : g ≠ [] ∧ g.head? = some 'A' := by
    rw [hg]; exact ⟨by simp, by simp⟩
  unfold classify_code stripS
  simp only [hstrip]
  rw [h2, codeShape_not_AUl g ⟨ds, t, hg, hne, hdig, ht⟩]
  rw [codeShape_not_Ldd g 'S' (by decide) ⟨ds, t, hg, hne, hdig, ht⟩,
    codeShape_not_Ldd g 'B' (by decide) ⟨ds, t, hg, hne, hdig, ht⟩,
    codeShape_not_Ldd g 'F' (by decide) ⟨ds, t, hg, hne, hdig, ht⟩]
  have hcar : ¬ (g = "Car".data) := by
    rw [hg]; intro hEq; exact absurd (List.head_eq_of_cons_eq hEq) (by decide)
  have hcou : ¬ (g = "Cou".data) := by
    rw [hg]; intro hEq; exact absurd (List.head_eq_of_cons_eq hEq) (by decide)
  have hnoe : ¬ (g = "NoE".data) := by
    rw [hg]; intro hEq; exact absurd (List.head_eq_of_cons_eq hEq) (by decide)
  have hbnk : ¬ (g = "BnK".data) := by
    rw [hg]; intro hEq; exact absurd (List.head_eq_of_cons_eq hEq) (by decide)
  simp [hcar, hcou, hnoe, hbnk]

/-- Claim C10: a restriction code extracted by the line classifier that is
not exactly `A` followed by two digits is unclassified by the glossary,
its description lookup is absent for every glossary state — even one whose
restrictions map stores a description under that exact code string — and
the validator's resolution therefore always emits the bare code. -/
theorem spec_C10 (line code : String)
    (hmem : code ∈ (extract_codes_from_line line).auflagen)
    (h2 : matchesA2 code.data = false) :
    classify_code code = none ∧
    (∀ db : Db, get_code_description db code = none) ∧
    (∀ db : Db, resolveOne db code = code) := by
  have hshape : codeShape code.data := by
    unfold extract_codes_from_line runScan at hmem
    simp only [List.mem_map] at hmem
    obtain ⟨g, hg, hcode⟩ := hmem
    have hmain := scanIter_from (boundaryStep tryAuflGroup)
      (fun g => codeShape (g.filter fun c => !(c = '-')))
      (fun l b a k hf => by
        obtain ⟨l', rem, h'⟩ := boundaryStep_from _ _ _ _ _ hf
        exact tryAuflGroup_shape _ _ _ h')
      _ _ _ g hg
    rw [← hcode]
    exact hmain
  have hclass : classify_code code = none := codeShape_classify code.data hshape h2
  have hdesc : ∀ db : Db, get_code_description db code = none := by
    intro db
    unfold get_code_description
    rw [hclass]
  refine ⟨hclass, hdesc, ?_⟩
  intro db
  unfold resolveOne
  rw [hdesc db]

/-- Claim C10 witness: `A12a` is extracted from the line `A12a x`, is
unclassified, and resolves to the bare code even though the restrictions
map stores a description for it. -/
theorem spec_C10_witness :
    classify_code "A12a" = none ∧
    get_code_description
      { auflagen := [("A12a", "Verbreiterte Kotflügel erforderlich")],
        hinweise := [], templates := [] } "A12a" = none ∧
    resolveOne
      { auflagen := [("A12a", "Verbreiterte Kotflügel erforderlich")],
        hinweise := [], templates := [] } "A12a" = "A12a" :=
  ⟨(spec_C10 "A12a x" "A12a" (by decide) (by decide)).1,
   (spec_C10 "A12a x" "A12a" (by decide) (by decide)).2.1 _,
   (spec_C10 "A12a x" "A12a" (by decide) (by decide)).2.2 _⟩
